import Mathlib

/-!
Shallow embedding of the titoland grid-world engine:
the world state (`game.ts`), the action catalog (`tools.ts`),
and the agent orchestration loop (`agent.ts` / `main.ts`).
Numbers that are integers in the source are modelled as `Nat`/`Int`;
the floating-point noise source of procedural generation is abstracted
as a rational-valued function of the coordinates, with the fractional
part taken exactly as in the source.
-/

namespace Titoland

/-- Terrain kinds (types.ts `TerrainType`). -/
inductive TerrainType where
  | grass
  | forest
  | mountain
  | water
  | desert
deriving DecidableEq, Repr

/-- Resource kinds (types.ts `ResourceType`). -/
inductive ResourceType where
  | wood
  | stone
  | sand
  | food
deriving DecidableEq, Repr

/-- String form of a resource kind; in TS the kind is the string itself. -/
def ResourceType.toString : ResourceType → String
  | .wood => "wood"
  | .stone => "stone"
  | .sand => "sand"
  | .food => "food"

/-- Grid coordinates (types.ts `Position`); TS numbers holding integers. -/
structure Position where
  x : Int
  y : Int
deriving DecidableEq, Repr

/-- One grid cell (types.ts `Tile`). The structure slot is a string because
`build` places its (string) argument after an unchecked cast. -/
structure Tile where
  terrain : TerrainType
  resource : Option ResourceType := none
  resourceAmount : Option Nat := none
  structure_ : Option String := none
deriving DecidableEq, Repr

/-- Inventory (types.ts `Inventory`): a JS object, i.e. an insertion-ordered
association list from item-name strings to counts. -/
abbrev Inventory := List (String × Nat)

/-- Agent state (types.ts `AgentState`). -/
structure AgentState where
  position : Position
  inventory : Inventory
  isActive : Bool
deriving DecidableEq, Repr

/-- World state (types.ts `GameWorld`). -/
structure GameWorld where
  size : Nat
  grid : List (List Tile)
  agent : AgentState
deriving DecidableEq, Repr

/-- Grid side length (game.ts `Game.gridSize`). -/
def gridSize : Nat := 20

/-- Procedural generation of one tile (game.ts `Game.generateTile`).
The implementation-specific float expression
sin(x * 12.9898 + y * 78.233) * 43758.5453 is abstracted as `noise x y`;
the source then takes `random = seed - floor(seed)`, the fractional part,
which we take exactly, so `0 ≤ random < 1` holds for every noise function. -/
def generateTile (noise : Nat → Nat → ℚ) (x y : Nat) : Tile :=
  let random : ℚ := Int.fract (noise x y)
  if x < 2 ∨ gridSize - 2 ≤ x ∨ y < 2 ∨ gridSize - 2 ≤ y then
    if random < 3/10 then
      { terrain := .water }
    else
      { terrain := .grass }
  else if random < 2/10 then
    { terrain := .forest, resource := some .wood,
      resourceAmount := some ((⌊random * 20⌋).toNat + 5) }
  else if random < 35/100 then
    { terrain := .mountain, resource := some .stone,
      resourceAmount := some ((⌊random * 15⌋).toNat + 3) }
  else if random < 45/100 then
    { terrain := .desert, resource := some .sand,
      resourceAmount := some ((⌊random * 10⌋).toNat + 2) }
  else if 8/10 < random then
    { terrain := .grass, resource := some .food,
      resourceAmount := some ((⌊random * 5⌋).toNat + 1) }
  else
    { terrain := .grass }

/-- Fresh world (game.ts `Game.createWorld`): a `gridSize × gridSize` grid of
generated tiles, agent at the middle with empty inventory, inactive. -/
def createWorld (noise : Nat → Nat → ℚ) : GameWorld :=
  { size := gridSize
    grid := (List.range gridSize).map fun y =>
      (List.range gridSize).map fun x => generateTile noise x y
    agent := { position := { x := 10, y := 10 }, inventory := [], isActive := false } }

/-- Bounds check (game.ts `Game.isValidPosition`). -/
def isValidPosition (pos : Position) : Bool :=
  0 ≤ pos.x && pos.x < (gridSize : Int) && 0 ≤ pos.y && pos.y < (gridSize : Int)

/-- Tile lookup (game.ts `Game.getTileAt`): the tile at `pos`, or `none`
out of bounds (the TS `null`). -/
def getTileAt (w : GameWorld) (pos : Position) : Option Tile :=
  if isValidPosition pos then
    (w.grid.get? pos.y.toNat).bind fun row => row.get? pos.x.toNat
  else
    none

/-- Helper for in-place tile mutation: replace the tile at `pos`. The TS
source mutates the tile object returned by `getTileAt`; here the grid cell
is rewritten. -/
def setTileAt (w : GameWorld) (pos : Position) (t : Tile) : GameWorld :=
  { w with grid :=
      w.grid.set pos.y.toNat ((w.grid.getD pos.y.toNat []).set pos.x.toNat t) }

/-- Agent movement primitive (game.ts `Game.setAgentPosition`): succeeds only
onto an in-bounds, non-water tile; returns whether it moved. -/
def setAgentPosition (w : GameWorld) (pos : Position) : Bool × GameWorld :=
  if isValidPosition pos then
    match getTileAt w pos with
    | some tile =>
      if tile.terrain ≠ .water then
        (true, { w with agent := { w.agent with position := pos } })
      else
        (false, w)
    | none => (false, w)
  else
    (false, w)

/-- Association-list lookup of a string key in a JS object (`obj[key]`;
`none` is the JS `undefined`). -/
def tableLookup {β : Type} (table : List (String × β)) (key : String) : Option β :=
  (table.find? fun p => p.1 = key).map fun p => p.2

/-- Association-list lookup of an inventory key (the JS `inv[item]`). -/
def invLookup (inv : Inventory) (item : String) : Option Nat :=
  tableLookup inv item

/-- Overwrite the value of a present inventory key in place. -/
def invSet (inv : Inventory) (item : String) (v : Nat) : Inventory :=
  inv.map fun p => if p.1 = item then (p.1, v) else p

/-- Inventory credit (game.ts `Game.addToInventory`): a missing (or zero,
falsy) entry is first initialised to 0, then `amount` is added. A missing
key is appended, matching JS object insertion order. -/
def addToInventory (w : GameWorld) (item : String) (amount : Nat) : GameWorld :=
  match invLookup w.agent.inventory item with
  | none =>
    { w with agent := { w.agent with inventory := w.agent.inventory ++ [(item, amount)] } }
  | some v =>
    { w with agent := { w.agent with inventory := invSet w.agent.inventory item (v + amount) } }

/-- Inventory debit (game.ts `Game.removeFromInventory`): only when the key is
present with count ≥ `amount` (in JS, `undefined >= amount` is false);
deletes the key when the count reaches 0. -/
def removeFromInventory (w : GameWorld) (item : String) (amount : Nat) :
    Bool × GameWorld :=
  match invLookup w.agent.inventory item with
  | none => (false, w)
  | some v =>
    if amount ≤ v then
      if v - amount = 0 then
        (true, { w with agent := { w.agent with
          inventory := w.agent.inventory.filter fun p => p.1 ≠ item } })
      else
        (true, { w with agent := { w.agent with
          inventory := invSet w.agent.inventory item (v - amount) } })
    else
      (false, w)

/-- Inventory query (game.ts `Game.hasInInventory`): `(inv[item] || 0) >= amount`. -/
def hasInInventory (w : GameWorld) (item : String) (amount : Nat) : Bool :=
  amount ≤ (invLookup w.agent.inventory item).getD 0

/-- Resource depletion (game.ts `Game.removeResourceFromTile`): requires a tile
with a resource present and a truthy amount ≥ `amount`; clears both resource
fields together when the amount reaches exactly 0. -/
def removeResourceFromTile (w : GameWorld) (pos : Position) (amount : Nat) :
    Bool × GameWorld :=
  match getTileAt w pos with
  | none => (false, w)
  | some tile =>
    if tile.resource.isSome ∧ tile.resourceAmount.getD 0 ≠ 0 ∧
        amount ≤ tile.resourceAmount.getD 0 then
      if tile.resourceAmount.getD 0 - amount = 0 then
        (true, setTileAt w pos { tile with resource := none, resourceAmount := none })
      else
        (true, setTileAt w pos
          { tile with resourceAmount := some (tile.resourceAmount.getD 0 - amount) })
    else
      (false, w)

/-- Structure placement (game.ts `Game.placeStructure`): in-bounds tile, no
structure yet (falsy slot), not water. -/
def placeStructure (w : GameWorld) (pos : Position) (s : String) :
    Bool × GameWorld :=
  match getTileAt w pos with
  | none => (false, w)
  | some tile =>
    if tile.structure_.getD "" = "" ∧ tile.terrain ≠ .water then
      (true, setTileAt w pos { tile with structure_ := some s })
    else
      (false, w)

/-- World reset (game.ts `Game.reset`): wholesale replacement by a fresh world. -/
def reset (noise : Nat → Nat → ℚ) : GameWorld :=
  createWorld noise

/-- One entry of the `look` report (types.ts `TileInfo`). -/
structure TileInfo where
  position : Position
  relativePosition : Position
  terrain : TerrainType
  resource : Option ResourceType
  resourceAmount : Option Nat
  structure_ : Option String
deriving DecidableEq, Repr

/-- Structured payloads carried in the `data` field of an outcome record,
one constructor per catalog operation that returns data. -/
inductive ToolData where
  | positionData (position : Position)
  | lookData (tiles : List TileInfo) (currentPosition : Position)
  | gatherData (resource : String) (amount : Nat)
  | craftData (item : String)
  | buildData (structure_ : String) (position : Position)
  | inventoryData (inventory : List (String × Nat))
deriving DecidableEq, Repr

/-- Uniform outcome record (types.ts `ToolResult`). -/
structure ToolResult where
  success : Bool
  message : String
  data : Option ToolData := none
deriving DecidableEq, Repr

/-- Valid movement directions (tools.ts `validDirections`). -/
def validDirections : List String :=
  ["north", "south", "east", "west"]

/-- The adjacent coordinate in a direction (the `switch` in tools.ts `move`). -/
def adjacentPosition (pos : Position) (direction : String) : Position :=
  if direction = "north" then { pos with y := pos.y - 1 }
  else if direction = "south" then { pos with y := pos.y + 1 }
  else if direction = "east" then { pos with x := pos.x + 1 }
  else { pos with x := pos.x - 1 }

/-- Catalog operation `move` (tools.ts `AgentTools.move`). -/
def move (w : GameWorld) (direction : String) : ToolResult × GameWorld :=
  if direction ∉ validDirections then
    ({ success := false
       message := "Invalid direction: " ++ direction ++ ". Must be one of: " ++
         String.intercalate ", " validDirections }, w)
  else
    let newPos := adjacentPosition w.agent.position direction
    let (moved, w') := setAgentPosition w newPos
    if moved then
      ({ success := true
         message := "Moved " ++ direction ++ " to position (" ++
           toString newPos.x ++ ", " ++ toString newPos.y ++ ")"
         data := some (.positionData newPos) }, w')
    else
      ({ success := false
         message := "Cannot move " ++ direction ++ " - obstacle or boundary in the way" },
       w')

/-- View radius of `look` (tools.ts `viewRadius`). -/
def viewRadius : Nat := 2

/-- Offsets scanned by `look`: -viewRadius .. viewRadius in loop order. -/
def lookOffsets : List Int :=
  (List.range (2 * viewRadius + 1)).map fun i => (i : Int) - (viewRadius : Int)

/-- Catalog operation `look` (tools.ts `AgentTools.look`): reports every
in-bounds tile in the square around the agent; never mutates, always succeeds. -/
def look (w : GameWorld) : ToolResult × GameWorld :=
  let pos := w.agent.position
  let visible : List TileInfo :=
    lookOffsets.flatMap fun dy =>
      lookOffsets.filterMap fun dx =>
        let checkPos : Position := { x := pos.x + dx, y := pos.y + dy }
        (getTileAt w checkPos).map fun tile =>
          { position := checkPos
            relativePosition := { x := dx, y := dy }
            terrain := tile.terrain
            resource := tile.resource
            resourceAmount := tile.resourceAmount
            structure_ := tile.structure_ }
  ({ success := true
     message := "Looking around position (" ++ toString pos.x ++ ", " ++
       toString pos.y ++ ")"
     data := some (.lookData visible pos) }, w)

/-- Catalog operation `gather` (tools.ts `AgentTools.gather`): only from the
tile under the agent, only the exactly matching resource kind, capped at 5
units per call; depletes the tile then credits the inventory. -/
def gather (w : GameWorld) (resource : String) : ToolResult × GameWorld :=
  let pos := w.agent.position
  match getTileAt w pos with
  | none => ({ success := false, message := "Invalid position" }, w)
  | some tile =>
    if (tile.resource.map ResourceType.toString) = some resource ∧
        tile.resourceAmount.getD 0 ≠ 0 ∧ 0 < tile.resourceAmount.getD 0 then
      let amountToGather := min 5 (tile.resourceAmount.getD 0)
      let w1 := (removeResourceFromTile w pos amountToGather).2
      let w2 := addToInventory w1 resource amountToGather
      ({ success := true
         message := "Gathered " ++ toString amountToGather ++ " " ++ resource
         data := some (.gatherData resource amountToGather) }, w2)
    else
      ({ success := false
         message := "No " ++ resource ++ " available at current position" }, w)

/-- Craft recipe table (tools.ts `recipes` in `craft`), in source order. -/
def recipes : List (String × List (String × Nat)) :=
  [("axe", [("wood", 3), ("stone", 2)]),
   ("pickaxe", [("wood", 2), ("stone", 3)]),
   ("campfire", [("wood", 5), ("stone", 3)])]

/-- Build requirement table (tools.ts `buildRequirements` in `build`). -/
def buildRequirements : List (String × List (String × Nat)) :=
  [("shelter", [("wood", 10), ("stone", 5)]),
   ("campfire", [("wood", 3), ("stone", 2)])]

/-- Catalog operation `craft` (tools.ts `AgentTools.craft`): checks the whole
recipe before any debit, then debits every ingredient and credits the item. -/
def craft (w : GameWorld) (item : String) : ToolResult × GameWorld :=
  match tableLookup recipes item with
  | none =>
    ({ success := false
       message := "Unknown item: " ++ item ++ ". Available items: " ++
         String.intercalate ", " (recipes.map fun p => p.1) }, w)
  | some recipe =>
    match recipe.find? fun p => ¬ hasInInventory w p.1 p.2 with
    | some short =>
      ({ success := false
         message := "Need " ++ toString short.2 ++ " " ++ short.1 ++ " to craft " ++
           item ++ ", but only have " ++
           toString ((invLookup w.agent.inventory short.1).getD 0) }, w)
    | none =>
      let w1 := recipe.foldl (fun acc p => (removeFromInventory acc p.1 p.2).2) w
      let w2 := addToInventory w1 item 1
      ({ success := true
         message := "Crafted " ++ item
         data := some (.craftData item) }, w2)

/-- Catalog operation `build` (tools.ts `AgentTools.build`): checks the whole
requirement table, then attempts placement, and debits resources only
after placement succeeded. -/
def build (w : GameWorld) (structure_ : String) : ToolResult × GameWorld :=
  match tableLookup buildRequirements structure_ with
  | none =>
    ({ success := false
       message := "Unknown structure: " ++ structure_ ++ ". Available: " ++
         String.intercalate ", " (buildRequirements.map fun p => p.1) }, w)
  | some requirements =>
    match requirements.find? fun p => ¬ hasInInventory w p.1 p.2 with
    | some short =>
      ({ success := false
         message := "Need " ++ toString short.2 ++ " " ++ short.1 ++ " to build " ++
           structure_ }, w)
    | none =>
      let pos := w.agent.position
      let (placed, w1) := placeStructure w pos structure_
      if ¬ placed then
        ({ success := false
           message := "Cannot build here - location occupied or invalid" }, w1)
      else
        let w2 := requirements.foldl (fun acc p => (removeFromInventory acc p.1 p.2).2) w1
        ({ success := true
           message := "Built " ++ structure_ ++ " at position (" ++ toString pos.x ++
             ", " ++ toString pos.y ++ ")"
           data := some (.buildData structure_ pos) }, w2)

/-- Catalog operation `getInventory` (tools.ts `AgentTools.getInventory`):
reports the inventory as the ordered entry list; always succeeds. -/
def getInventory (w : GameWorld) : ToolResult × GameWorld :=
  let items := w.agent.inventory
  ({ success := true
     message := "Inventory contains " ++ toString items.length ++ " item types"
     data := some (.inventoryData items) }, w)

/-- One requested operation (types.ts `GeminiFunctionCall`): a name and an
argument mapping. The service schema restricts every argument to an
enumerated string, so argument values are modelled as strings. -/
structure FnCall where
  name : String
  args : List (String × String)
deriving DecidableEq, Repr

/-- One part of a conversation turn (types.ts `GeminiPart` /
`GeminiFunctionResponse`): free text, a requested operation, or an
operation's result. -/
inductive TurnPart where
  | text (s : String)
  | functionCall (call : FnCall)
  | functionResponse (name : String) (response : ToolResult)
deriving DecidableEq, Repr

/-- One conversation turn (types.ts `GeminiContent`). -/
structure Content where
  role : String
  parts : List TurnPart
deriving DecidableEq, Repr

/-- Outcome of one call to the external decision service (agent.ts
`callGemini`): a thrown transport error, a response without content
(the optional-chain yielding `undefined`), or a content turn. -/
inductive GeminiResult where
  | fail (msg : String)
  | ok (content : Option Content)

/-- Extraction of requested operations from a response turn (agent.ts
`extractFunctionCalls`). -/
def extractFunctionCalls (content : Content) : List FnCall :=
  content.parts.filterMap fun part =>
    match part with
    | .functionCall call => some call
    | _ => none

/-- Extraction of the first free-text part (agent.ts `extractText`);
empty string when there is none. -/
def extractText (content : Content) : String :=
  (content.parts.findSome? fun part =>
    match part with
    | .text s => if s ≠ "" then some s else none
    | _ => none).getD ""

/-- Argument coercion `String(args.key || "")` used in `executeTool`. -/
def argString (args : List (String × String)) (key : String) : String :=
  (tableLookup args key).getD ""

/-- Names the catalog resolves (the `switch` in agent.ts `executeTool`). -/
def toolNames : List String :=
  ["move", "look", "gather", "craft", "build", "getInventory"]

/-- Dispatch of a requested operation (agent.ts `Agent.executeTool`): unknown
names produce a local failure outcome, not an error. -/
def executeTool (w : GameWorld) (name : String) (args : List (String × String)) :
    ToolResult × GameWorld :=
  if name = "move" then move w (argString args "direction")
  else if name = "look" then look w
  else if name = "gather" then gather w (argString args "resource")
  else if name = "craft" then craft w (argString args "item")
  else if name = "build" then build w (argString args "structure")
  else if name = "getInventory" then getInventory w
  else ({ success := false, message := "Unknown tool: " ++ name }, w)

/-- Severity of a log event (agent.ts `LogCallback`). -/
inductive LogKind where
  | info
  | success
  | error
deriving DecidableEq, Repr

/-- One log event: message and severity. -/
abbrev LogEntry := String × LogKind

/-- The mutable state a run of the loop owns besides the world:
the conversation history (agent.ts `conversationHistory`). -/
structure LoopState where
  conversation : List Content
  world : GameWorld
deriving DecidableEq, Repr

/-- Terminal condition of a run, read off the exits of agent.ts `runLoop`:
a round with no requested operations (spec state Completed), exhaustion of
the iteration bound (MaxIterationsReached), a response without content, or
a thrown service error (both spec state Stopped). -/
inductive RunOutcome where
  | completed
  | maxIterationsReached
  | noResponseStop
  | errorStop
deriving DecidableEq, Repr

/-- Result of a run: terminal condition, final loop state, the final value of
the iteration counter, and the emitted log events in order. -/
structure RunResult where
  outcome : RunOutcome
  final : LoopState
  iterations : Nat
  logs : List LogEntry
deriving Repr

/-- Iteration bound (agent.ts `maxIterations`). -/
def maxIterations : Nat := 30

/-- Rendering of an argument mapping as `JSON.stringify` prints it
in the per-call log line. -/
def jsonArgs (args : List (String × String)) : String :=
  "\x7b" ++ String.intercalate ","
    (args.map fun p => "\"" ++ p.1 ++ "\":\"" ++ p.2 ++ "\"") ++ "\x7d"

/-- Sequential execution of one round's requested operations (the `for` loop
in agent.ts `runLoop`): collects the function responses and log lines. -/
def execCalls (w : GameWorld) : List FnCall → List (String × ToolResult) × List LogEntry × GameWorld
  | [] => ([], [], w)
  | call :: rest =>
    let (result, w1) := executeTool w call.name call.args
    let entry : LogEntry :=
      (call.name ++ "(" ++ jsonArgs call.args ++ "): " ++ result.message,
       if result.success then .success else .error)
    let (responses, logs, w2) := execCalls w1 rest
    ((call.name, result) :: responses, entry :: logs, w2)

/-- The model turn recording a round's requested operations. -/
def modelTurn (calls : List FnCall) : Content :=
  { role := "model", parts := calls.map fun call => .functionCall call }

/-- The user turn carrying a round's operation outcomes. -/
def userTurn (responses : List (String × ToolResult)) : Content :=
  { role := "user", parts := responses.map fun p => .functionResponse p.1 p.2 }

/-- The `while` loop of agent.ts `runLoop`, from an iteration counter value;
`responses i` is the service's reply to the call made when the counter was
`i` (so the reply logged as iteration `i + 1`). The external stop signal is
not modelled: `isRunning` stays true for the whole run. -/
def runLoopGo (responses : Nat → GeminiResult) (iteration : Nat) (st : LoopState) :
    RunResult :=
  if _h : iteration < maxIterations then
    let header : LogEntry := ("--- Iteration " ++ toString (iteration + 1) ++ " ---", .info)
    match responses iteration with
    | .fail msg =>
      { outcome := .errorStop, final := st, iterations := iteration + 1
        logs := [header, ("Error: " ++ msg, .error)] }
    | .ok none =>
      { outcome := .noResponseStop, final := st, iterations := iteration + 1
        logs := [header, ("No response from Gemini", .error)] }
    | .ok (some content) =>
      let calls := extractFunctionCalls content
      if calls.isEmpty then
        let textResponse := extractText content
        { outcome := .completed, final := st, iterations := iteration + 1
          logs := header ::
            ((if textResponse ≠ "" then [("Agent: " ++ textResponse, LogKind.success)] else []) ++
              [("Agent completed its task", .success)]) }
      else
        let (functionResponses, callLogs, w') := execCalls st.world calls
        let st' : LoopState :=
          { conversation := st.conversation ++ [modelTurn calls, userTurn functionResponses]
            world := w' }
        let rest := runLoopGo responses (iteration + 1) st'
        { rest with logs := header :: (callLogs ++ rest.logs) }
  else
    { outcome := .maxIterationsReached, final := st, iterations := iteration, logs := [] }
termination_by maxIterations - iteration

/-- A whole run of the loop (agent.ts `runLoop`): starts the counter at 0 and
appends the final `Reached maximum iterations` log exactly when the counter
ended at the bound. -/
def runLoop (responses : Nat → GeminiResult) (st : LoopState) : RunResult :=
  let r := runLoopGo responses 0 st
  if maxIterations ≤ r.iterations then
    { r with logs := r.logs ++ [("Reached maximum iterations", .info)] }
  else
    r

/-- The instruction turn seeded by `start` (agent.ts `systemPrompt`). -/
def systemPrompt (goal : String) : String :=
  "You are an AI agent in a grid-based resource world. Your goal is: " ++ goal ++
  "\n\nYou have access to tools to interact with the world. Use them strategically to accomplish your goal.\n\nThe world consists of:\n- Grass: Open terrain, may have food\n- Forest: Contains wood (gather with 'gather' tool)\n- Mountain: Contains stone (gather with 'gather' tool)\n- Desert: Contains sand (gather with 'gather' tool)\n- Water: Cannot walk through\n\nAvailable actions:\n- move: Navigate the world\n- look: Observe your surroundings\n- gather: Collect resources from your current tile\n- craft: Create items from resources\n- build: Construct structures\n- getInventory: Check what you're carrying\n\nStart by using 'look' to understand your surroundings, then plan your actions to achieve the goal.\nBe efficient and strategic. If you accomplish the goal, explain what you did."

/-- The orchestration loop's own control state (the fields of agent.ts
`Agent`): whether a run is active, the conversation, the credential. -/
structure AgentCtl where
  isRunning : Bool
  conversationHistory : List Content
  apiKey : String
deriving DecidableEq, Repr

/-- Entry point `Agent.start` (agent.ts): with no credential it logs an error
and returns with nothing changed; otherwise it seeds the conversation with
the instruction turn and runs the loop. Returns the updated control state,
the world, and the run record (`none` when no run happened). -/
def start (goal : String) (responses : Nat → GeminiResult) (a : AgentCtl)
    (w : GameWorld) : AgentCtl × GameWorld × Option RunResult :=
  if a.apiKey = "" then
    (a, w, none)
  else
    let seeded : List Content := [{ role := "user", parts := [.text (systemPrompt goal)] }]
    let r := runLoop responses { conversation := seeded, world := w }
    ({ a with isRunning := false, conversationHistory := r.final.conversation },
     r.final.world, some r)

/-- Entry point `Agent.stop` (agent.ts): clears the running flag; touches
neither the conversation nor the world. -/
def stop (a : AgentCtl) : AgentCtl :=
  { a with isRunning := false }

/-- UI entry point `startAgent` (main.ts): trims both inputs and returns
before touching the agent when either the goal or the key is empty;
otherwise stores the key and calls `Agent.start`. -/
def startAgent (goalInput apiKeyInput : String) (responses : Nat → GeminiResult)
    (a : AgentCtl) (w : GameWorld) : AgentCtl × GameWorld × Option RunResult :=
  let goal := goalInput.trim
  let apiKey := apiKeyInput.trim
  if goal = "" then
    (a, w, none)
  else if apiKey = "" then
    (a, w, none)
  else
    start goal responses { a with apiKey := apiKey } w

/-- Resource-consistency of one tile: resource kind and quantity present
together with a strictly positive quantity, or absent together. -/
def TileOk (t : Tile) : Prop :=
  (t.resource = none ∧ t.resourceAmount = none) ∨
  (∃ r n, t.resource = some r ∧ t.resourceAmount = some n ∧ 0 < n)

/-- Resource-consistency of every tile of the grid. -/
def TileResourceInv (w : GameWorld) : Prop :=
  ∀ row ∈ w.grid, ∀ t ∈ row, TileOk t

/-- Agent-position legality: the tile under the agent exists (hence the
coordinates are in bounds) and is not water. -/
def AgentOk (w : GameWorld) : Prop :=
  ∃ t, getTileAt w w.agent.position = some t ∧ t.terrain ≠ TerrainType.water

/-- All world invariants tracked through every mutation. -/
def WorldInv (w : GameWorld) : Prop :=
  TileResourceInv w ∧ AgentOk w ∧ w.agent.isActive = false

/-- One mutation of the world state: a `Game` primitive, a catalog operation,
a dispatched operation request, or a reset. -/
inductive Step : GameWorld → GameWorld → Prop where
  | setAgentPosition (w : GameWorld) (pos : Position) :
      Step w (Titoland.setAgentPosition w pos).2
  | addToInventory (w : GameWorld) (item : String) (amount : Nat) :
      Step w (Titoland.addToInventory w item amount)
  | removeFromInventory (w : GameWorld) (item : String) (amount : Nat) :
      Step w (Titoland.removeFromInventory w item amount).2
  | removeResourceFromTile (w : GameWorld) (pos : Position) (amount : Nat) :
      Step w (Titoland.removeResourceFromTile w pos amount).2
  | placeStructure (w : GameWorld) (pos : Position) (s : String) :
      Step w (Titoland.placeStructure w pos s).2
  | reset (w : GameWorld) (noise : Nat → Nat → ℚ) :
      Step w (Titoland.reset noise)
  | move (w : GameWorld) (direction : String) :
      Step w (Titoland.move w direction).2
  | look (w : GameWorld) :
      Step w (Titoland.look w).2
  | gather (w : GameWorld) (resource : String) :
      Step w (Titoland.gather w resource).2
  | craft (w : GameWorld) (item : String) :
      Step w (Titoland.craft w item).2
  | build (w : GameWorld) (s : String) :
      Step w (Titoland.build w s).2
  | getInventory (w : GameWorld) :
      Step w (Titoland.getInventory w).2
  | executeTool (w : GameWorld) (name : String) (args : List (String × String)) :
      Step w (Titoland.executeTool w name args).2

/-- Reachable world states: a fresh world, or the image of a reachable state
under one mutation. -/
inductive Reachable : GameWorld → Prop where
  | fresh (noise : Nat → Nat → ℚ) : Reachable (createWorld noise)
  | step {w w' : GameWorld} : Reachable w → Step w w' → Reachable w'

theorem tileOk_generateTile (noise : Nat → Nat → ℚ) (x y : Nat) :
    TileOk (generateTile noise x y) := by
  unfold TileOk generateTile
  dsimp only
  split
  · split <;> exact Or.inl ⟨rfl, rfl⟩
  · split
    · exact Or.inr ⟨_, _, rfl, rfl, by omega⟩
    · split
      · exact Or.inr ⟨_, _, rfl, rfl, by omega⟩
      · split
        · exact Or.inr ⟨_, _, rfl, rfl, by omega⟩
        · split
          · exact Or.inr ⟨_, _, rfl, rfl, by omega⟩
          · exact Or.inl ⟨rfl, rfl⟩

theorem generateTile_interior_terrain (noise : Nat → Nat → ℚ) (x y : Nat)
    (hx1 : 2 ≤ x) (hx2 : x < gridSize - 2) (hy1 : 2 ≤ y) (hy2 : y < gridSize - 2) :
    (generateTile noise x y).terrain ≠ TerrainType.water := by
  unfold generateTile
  dsimp only
  rw [if_neg (by omega)]
  split
  · simp
  · split
    · simp
    · split
      · simp
      · split <;> simp

theorem tileResourceInv_createWorld (noise : Nat → Nat → ℚ) :
    TileResourceInv (createWorld noise) := by
  intro row hrow t ht
  simp only [createWorld, List.mem_map] at hrow
  obtain ⟨y, _, rfl⟩ := hrow
  simp only [List.mem_map] at ht
  obtain ⟨x, _, rfl⟩ := ht
  exact tileOk_generateTile noise x y

theorem isValidPosition_bounds {pos : Position} (h : isValidPosition pos = true) :
    pos.x.toNat < gridSize ∧ pos.y.toNat < gridSize := by
  simp only [isValidPosition, Bool.and_eq_true, decide_eq_true_eq] at h
  unfold gridSize at h ⊢
  omega

theorem getTileAt_createWorld (noise : Nat → Nat → ℚ) (pos : Position)
    (h : isValidPosition pos = true) :
    getTileAt (createWorld noise) pos =
      some (generateTile noise pos.x.toNat pos.y.toNat) := by
  obtain ⟨hx, hy⟩ := isValidPosition_bounds h
  simp only [getTileAt, h, if_true, createWorld]
  rw [List.get?_eq_getElem?, List.getElem?_map, List.getElem?_range hy]
  simp only [Option.map_some', Option.some_bind]
  rw [List.get?_eq_getElem?, List.getElem?_map, List.getElem?_range hx]
  rfl

theorem agentOk_createWorld (noise : Nat → Nat → ℚ) :
    AgentOk (createWorld noise) := by
  refine ⟨generateTile noise 10 10, ?_, ?_⟩
  · have h := getTileAt_createWorld noise { x := 10, y := 10 } (by decide)
    simpa using h
  · exact generateTile_interior_terrain noise 10 10 (by omega) (by decide)
      (by omega) (by decide)

theorem worldInv_createWorld (noise : Nat → Nat → ℚ) :
    WorldInv (createWorld noise) :=
  ⟨tileResourceInv_createWorld noise, agentOk_createWorld noise, rfl⟩

theorem isValidPosition_of_getTileAt {w : GameWorld} {pos : Position} {t : Tile}
    (h : getTileAt w pos = some t) : isValidPosition pos = true := by
  unfold getTileAt at h
  by_cases hv : isValidPosition pos = true
  · exact hv
  · rw [if_neg hv] at h
    exact absurd h (by simp)

theorem getTileAt_decompose {w : GameWorld} {pos : Position} {t : Tile}
    (h : getTileAt w pos = some t) :
    ∃ row, w.grid.get? pos.y.toNat = some row ∧ row.get? pos.x.toNat = some t := by
  unfold getTileAt at h
  rw [if_pos (isValidPosition_of_getTileAt h)] at h
  exact Option.bind_eq_some.mp h

theorem getTileAt_setTileAt {w : GameWorld} {pos : Position} {t₀ : Tile}
    (h₀ : getTileAt w pos = some t₀) (t : Tile) (q : Position) :
    getTileAt (setTileAt w pos t) q = getTileAt w q ∨
      (getTileAt (setTileAt w pos t) q = some t ∧ getTileAt w q = some t₀) := by
  obtain ⟨row, hrow, hcell⟩ := getTileAt_decompose h₀
  rw [List.get?_eq_getElem?] at hrow hcell
  have hrowD : w.grid.getD pos.y.toNat [] = row := by
    rw [List.getD_eq_getElem?_getD, hrow]
    rfl
  have hylt : pos.y.toNat < w.grid.length := (List.getElem?_eq_some_iff.mp hrow).1
  have hxlt : pos.x.toNat < row.length := (List.getElem?_eq_some_iff.mp hcell).1
  unfold getTileAt setTileAt
  dsimp only
  by_cases hq : isValidPosition q = true
  case neg => simp [hq]
  rw [if_pos hq, if_pos hq]
  simp only [List.get?_eq_getElem?]
  by_cases hyy : q.y.toNat = pos.y.toNat
  · rw [hyy, hrowD, List.getElem?_set_self hylt]
    simp only [Option.some_bind]
    by_cases hxx : q.x.toNat = pos.x.toNat
    · rw [hxx, List.getElem?_set_self hxlt]
      right
      refine ⟨rfl, ?_⟩
      rw [hrow, Option.some_bind]
      exact hcell
    · left
      rw [List.getElem?_set_ne (fun hh => hxx hh.symm), hrow, Option.some_bind]
  · left
    rw [List.getElem?_set_ne (fun hh => hyy hh.symm)]

theorem setTileAt_agent (w : GameWorld) (pos : Position) (t : Tile) :
    (setTileAt w pos t).agent = w.agent := rfl

theorem tileResourceInv_setTileAt {w : GameWorld} {pos : Position} {t₀ : Tile}
    (h₀ : getTileAt w pos = some t₀) (t : Tile) (hok : TileOk t)
    (h : TileResourceInv w) : TileResourceInv (setTileAt w pos t) := by
  obtain ⟨row, hrow, _⟩ := getTileAt_decompose h₀
  have hrowD : w.grid.getD pos.y.toNat [] = row := by
    rw [List.getD_eq_getElem?_getD, ← List.get?_eq_getElem?, hrow]
    rfl
  have hrowMem : row ∈ w.grid := List.get?_mem hrow
  intro row' hrow' tile htile
  unfold setTileAt at hrow'
  dsimp only at hrow'
  rcases List.mem_or_eq_of_mem_set hrow' with hmem | rfl
  · exact h row' hmem tile htile
  · rw [hrowD] at htile
    rcases List.mem_or_eq_of_mem_set htile with hmem | rfl
    · exact h row hrowMem tile hmem
    · exact hok

theorem agentOk_setTileAt {w : GameWorld} {pos : Position} {t₀ : Tile}
    (h₀ : getTileAt w pos = some t₀) (t : Tile)
    (hterr : t.terrain = t₀.terrain) (h : AgentOk w) :
    AgentOk (setTileAt w pos t) := by
  obtain ⟨ta, hta, hwa⟩ := h
  unfold AgentOk
  rw [setTileAt_agent]
  rcases getTileAt_setTileAt h₀ t w.agent.position with heq | ⟨heq, hold⟩
  · exact ⟨ta, heq.trans hta, hwa⟩
  · refine ⟨t, heq, ?_⟩
    have hta0 : ta = t₀ := by
      rw [hold] at hta
      exact (Option.some_inj.mp hta).symm
    rw [hterr, ← hta0]
    exact hwa

theorem worldInv_setTileAt {w : GameWorld} {pos : Position} {t₀ : Tile}
    (h₀ : getTileAt w pos = some t₀) (t : Tile) (hok : TileOk t)
    (hterr : t.terrain = t₀.terrain) (h : WorldInv w) :
    WorldInv (setTileAt w pos t) :=
  ⟨tileResourceInv_setTileAt h₀ t hok h.1, agentOk_setTileAt h₀ t hterr h.2.1,
   (congrArg AgentState.isActive (setTileAt_agent w pos t)).trans h.2.2⟩

theorem tileResourceInv_congr {w w' : GameWorld} (hg : w'.grid = w.grid)
    (h : TileResourceInv w) : TileResourceInv w' := by
  intro row hrow
  exact h row (hg ▸ hrow)

theorem getTileAt_congr {w w' : GameWorld} (hg : w'.grid = w.grid)
    (pos : Position) : getTileAt w' pos = getTileAt w pos := by
  unfold getTileAt
  rw [hg]

theorem agentOk_congr {w w' : GameWorld} (hg : w'.grid = w.grid)
    (hp : w'.agent.position = w.agent.position) (h : AgentOk w) : AgentOk w' := by
  obtain ⟨t, ht, hw⟩ := h
  exact ⟨t, by rw [getTileAt_congr hg, hp]; exact ht, hw⟩

theorem worldInv_congr {w w' : GameWorld} (hg : w'.grid = w.grid)
    (hp : w'.agent.position = w.agent.position)
    (ha : w'.agent.isActive = w.agent.isActive) (h : WorldInv w) : WorldInv w' :=
  ⟨tileResourceInv_congr hg h.1, agentOk_congr hg hp h.2.1, ha.trans h.2.2⟩

theorem worldInv_addToInventory (w : GameWorld) (item : String) (amount : Nat)
    (h : WorldInv w) : WorldInv (addToInventory w item amount) := by
  unfold addToInventory
  split <;> exact worldInv_congr rfl rfl rfl h

theorem worldInv_removeFromInventory (w : GameWorld) (item : String) (amount : Nat)
    (h : WorldInv w) : WorldInv (removeFromInventory w item amount).2 := by
  unfold removeFromInventory
  split
  · exact h
  · split
    · split <;> exact worldInv_congr rfl rfl rfl h
    · exact h

theorem worldInv_setAgentPosition (w : GameWorld) (pos : Position)
    (h : WorldInv w) : WorldInv (setAgentPosition w pos).2 := by
  unfold setAgentPosition
  split
  · split
    next tile hg =>
      split
      next hw => exact ⟨tileResourceInv_congr rfl h.1, ⟨tile, hg, hw⟩, h.2.2⟩
      next => exact h
    next => exact h
  · exact h

theorem worldInv_removeResourceFromTile (w : GameWorld) (pos : Position)
    (amount : Nat) (h : WorldInv w) :
    WorldInv (removeResourceFromTile w pos amount).2 := by
  unfold removeResourceFromTile
  split
  · exact h
  next tile hg =>
    split
    next hc =>
      split
      next hz => exact worldInv_setTileAt hg _ (Or.inl ⟨rfl, rfl⟩) rfl h
      next hnz =>
        refine worldInv_setTileAt hg _ ?_ rfl h
        obtain ⟨hres, hne, hge⟩ := hc
        obtain ⟨r, hr⟩ := Option.isSome_iff_exists.mp hres
        exact Or.inr ⟨r, _, by simp [hr], rfl, by omega⟩
    next => exact h

theorem worldInv_placeStructure (w : GameWorld) (pos : Position) (s : String)
    (h : WorldInv w) : WorldInv (placeStructure w pos s).2 := by
  unfold placeStructure
  split
  · exact h
  next tile hg =>
    split
    next hc =>
      refine worldInv_setTileAt hg _ ?_ rfl h
      obtain ⟨row, hrow, hcell⟩ := getTileAt_decompose hg
      have hok : TileOk tile := h.1 row (List.get?_mem hrow) tile (List.get?_mem hcell)
      rcases hok with ⟨h1, h2⟩ | ⟨r, n, h1, h2, h3⟩
      · exact Or.inl ⟨h1, h2⟩
      · exact Or.inr ⟨r, n, h1, h2, h3⟩
    next => exact h

theorem worldInv_foldl_removeFromInventory (l : List (String × Nat))
    (w : GameWorld) (h : WorldInv w) :
    WorldInv (l.foldl (fun acc p => (removeFromInventory acc p.1 p.2).2) w) := by
  induction l generalizing w with
  | nil => exact h
  | cons p rest ih => exact ih _ (worldInv_removeFromInventory _ _ _ h)

theorem worldInv_move (w : GameWorld) (direction : String) (h : WorldInv w) :
    WorldInv (move w direction).2 := by
  unfold move
  split
  · exact h
  · dsimp only
    split <;> exact worldInv_setAgentPosition w _ h

theorem worldInv_gather (w : GameWorld) (resource : String) (h : WorldInv w) :
    WorldInv (gather w resource).2 := by
  unfold gather
  dsimp only
  split
  · exact h
  next tile hg =>
    split
    next hc =>
      exact worldInv_addToInventory _ _ _ (worldInv_removeResourceFromTile _ _ _ h)
    next => exact h

theorem worldInv_craft (w : GameWorld) (item : String) (h : WorldInv w) :
    WorldInv (craft w item).2 := by
  unfold craft
  split
  · exact h
  · split
    · exact h
    · dsimp only
      exact worldInv_addToInventory _ _ _ (worldInv_foldl_removeFromInventory _ _ h)

theorem worldInv_build (w : GameWorld) (s : String) (h : WorldInv w) :
    WorldInv (build w s).2 := by
  unfold build
  split
  · exact h
  · split
    · exact h
    · dsimp only
      split
      · exact worldInv_placeStructure w _ s h
      · exact worldInv_foldl_removeFromInventory _ _ (worldInv_placeStructure w _ s h)

theorem worldInv_executeTool (w : GameWorld) (name : String)
    (args : List (String × String)) (h : WorldInv w) :
    WorldInv (executeTool w name args).2 := by
  unfold executeTool
  split
  · exact worldInv_move _ _ h
  · split
    · exact h
    · split
      · exact worldInv_gather _ _ h
      · split
        · exact worldInv_craft _ _ h
        · split
          · exact worldInv_build _ _ h
          · split
            · exact h
            · exact h

theorem step_preserves {w w' : GameWorld} (hs : Step w w') (h : WorldInv w) :
    WorldInv w' := by
  cases hs with
  | setAgentPosition pos => exact worldInv_setAgentPosition w pos h
  | addToInventory item amount => exact worldInv_addToInventory w item amount h
  | removeFromInventory item amount => exact worldInv_removeFromInventory w item amount h
  | removeResourceFromTile pos amount => exact worldInv_removeResourceFromTile w pos amount h
  | placeStructure pos s => exact worldInv_placeStructure w pos s h
  | reset noise => exact worldInv_createWorld noise
  | move direction => exact worldInv_move w direction h
  | look => exact h
  | gather resource => exact worldInv_gather w resource h
  | craft item => exact worldInv_craft w item h
  | build s => exact worldInv_build w s h
  | getInventory => exact h
  | executeTool name args => exact worldInv_executeTool w name args h

theorem reachable_worldInv {w : GameWorld} (h : Reachable w) : WorldInv w := by
  induction h with
  | fresh noise => exact worldInv_createWorld noise
  | step _ hs ih => exact step_preserves hs ih

theorem execCalls_world_cons (w : GameWorld) (call : FnCall) (rest : List FnCall) :
    (execCalls w (call :: rest)).2.2 =
      (execCalls (executeTool w call.name call.args).2 rest).2.2 := rfl

theorem reachable_execCalls (calls : List FnCall) (w : GameWorld)
    (h : Reachable w) : Reachable (execCalls w calls).2.2 := by
  induction calls generalizing w with
  | nil => exact h
  | cons call rest ih =>
    rw [execCalls_world_cons]
    exact ih _ (Reachable.step h (Step.executeTool w call.name call.args))

theorem reachable_runLoopGo_aux (responses : Nat → GeminiResult) (fuel : Nat) :
    ∀ (iteration : Nat) (st : LoopState), maxIterations - iteration ≤ fuel →
      Reachable st.world →
      Reachable (runLoopGo responses iteration st).final.world := by
  induction fuel with
  | zero =>
    intro iteration st hle h
    unfold runLoopGo
    rw [dif_neg (by omega)]
    exact h
  | succ n ih =>
    intro iteration st hle h
    unfold runLoopGo
    by_cases hlt : iteration < maxIterations
    · rw [dif_pos hlt]
      cases responses iteration with
      | fail msg => exact h
      | ok content =>
        cases content with
        | none => exact h
        | some c =>
          dsimp only
          split
          · exact h
          · dsimp only
            exact ih (iteration + 1) _ (by omega) (reachable_execCalls _ _ h)
    · rw [dif_neg hlt]
      exact h

theorem reachable_runLoopGo (responses : Nat → GeminiResult) (iteration : Nat)
    (st : LoopState) (h : Reachable st.world) :
    Reachable (runLoopGo responses iteration st).final.world :=
  reachable_runLoopGo_aux responses (maxIterations - iteration) iteration st
    (le_refl _) h

theorem reachable_runLoop (responses : Nat → GeminiResult) (st : LoopState)
    (h : Reachable st.world) : Reachable (runLoop responses st).final.world := by
  unfold runLoop
  dsimp only
  split <;> exact reachable_runLoopGo responses 0 st h

theorem reachable_start (goal : String) (responses : Nat → GeminiResult)
    (a : AgentCtl) (w : GameWorld) (h : Reachable w) :
    Reachable (start goal responses a w).2.1 := by
  unfold start
  split
  · exact h
  · dsimp only
    exact reachable_runLoop responses _ h

theorem getTileAt_setTileAt_self {w : GameWorld} {pos : Position} {t₀ : Tile}
    (h₀ : getTileAt w pos = some t₀) (t : Tile) :
    getTileAt (setTileAt w pos t) pos = some t := by
  obtain ⟨row, hrow, hcell⟩ := getTileAt_decompose h₀
  rw [List.get?_eq_getElem?] at hrow hcell
  have hrowD : w.grid.getD pos.y.toNat [] = row := by
    rw [List.getD_eq_getElem?_getD, hrow]
    rfl
  have hylt : pos.y.toNat < w.grid.length := (List.getElem?_eq_some_iff.mp hrow).1
  have hxlt : pos.x.toNat < row.length := (List.getElem?_eq_some_iff.mp hcell).1
  unfold getTileAt setTileAt
  dsimp only
  rw [if_pos (isValidPosition_of_getTileAt h₀)]
  simp only [List.get?_eq_getElem?]
  rw [hrowD, List.getElem?_set_self hylt]
  simp only [Option.some_bind]
  rw [List.getElem?_set_self hxlt]

theorem removeResourceFromTile_success {w : GameWorld} {pos : Position} {tile : Tile}
    (hg : getTileAt w pos = some tile) (amount : Nat)
    (hc : tile.resource.isSome ∧ tile.resourceAmount.getD 0 ≠ 0 ∧
      amount ≤ tile.resourceAmount.getD 0) :
    getTileAt (removeResourceFromTile w pos amount).2 pos =
      some (if tile.resourceAmount.getD 0 - amount = 0
        then { tile with resource := none, resourceAmount := none }
        else { tile with resourceAmount := some (tile.resourceAmount.getD 0 - amount) }) := by
  unfold removeResourceFromTile
  rw [hg]
  dsimp only
  rw [if_pos hc]
  by_cases hz : tile.resourceAmount.getD 0 - amount = 0
  · rw [if_pos hz, if_pos hz]
    exact getTileAt_setTileAt_self hg _
  · rw [if_neg hz, if_neg hz]
    exact getTileAt_setTileAt_self hg _

theorem removeResourceFromTile_agent (w : GameWorld) (pos : Position) (amount : Nat) :
    (removeResourceFromTile w pos amount).2.agent = w.agent := by
  unfold removeResourceFromTile
  split
  · rfl
  · split
    · split <;> rfl
    · rfl

theorem find?_invSet_self (inv : Inventory) (item : String) (n : Nat) :
    ((invSet inv item n).find? fun p => p.1 = item) =
      ((inv.find? fun p => p.1 = item).map fun _ => (item, n)) := by
  induction inv with
  | nil => rfl
  | cons q rest ih =>
    unfold invSet at ih ⊢
    by_cases hq : q.1 = item
    · simp [List.find?_cons, hq]
    · simp [List.find?_cons, hq, ih]

theorem invLookup_invSet_self (inv : Inventory) (item : String) (n : Nat) :
    invLookup (invSet inv item n) item = (invLookup inv item).map fun _ => n := by
  unfold invLookup tableLookup
  rw [find?_invSet_self]
  cases inv.find? fun p => p.1 = item <;> rfl

theorem invLookup_append_single (inv : Inventory) (item : String) (amount : Nat)
    (h : invLookup inv item = none) :
    invLookup (inv ++ [(item, amount)]) item = some amount := by
  unfold invLookup tableLookup at h ⊢
  have hf : (inv.find? fun p => p.1 = item) = none := Option.map_eq_none'.mp h
  rw [List.find?_append, hf]
  simp [List.find?]

theorem invLookup_addToInventory (w : GameWorld) (item : String) (amount : Nat) :
    invLookup (addToInventory w item amount).agent.inventory item =
      some ((invLookup w.agent.inventory item).getD 0 + amount) := by
  unfold addToInventory
  cases hl : invLookup w.agent.inventory item with
  | none =>
    dsimp only
    rw [invLookup_append_single w.agent.inventory item amount hl]
    simp
  | some v =>
    dsimp only
    rw [invLookup_invSet_self, hl]
    rfl

/-- Noise function fixed to 0, for concrete instantiations. -/
def zeroNoise : Nat → Nat → ℚ := fun _ _ => 0

/-- A concrete fresh world. -/
def w0 : GameWorld := createWorld zeroNoise

/-- C1: in every reachable world state every tile keeps its resource kind and
its remaining quantity consistent — both absent, or both present with a
strictly positive quantity — and depleting a tile by exactly its remaining
quantity clears the resource kind and the quantity field together. -/
theorem c1_resource_depletion_invariant (w : GameWorld) (h : Reachable w) :
    TileResourceInv w ∧
      ∀ (pos : Position) (tile : Tile), getTileAt w pos = some tile →
        tile.resourceAmount.getD 0 ≠ 0 →
        getTileAt (removeResourceFromTile w pos (tile.resourceAmount.getD 0)).2 pos =
          some { tile with resource := none, resourceAmount := none } := by
  have hw := reachable_worldInv h
  refine ⟨hw.1, ?_⟩
  intro pos tile hg hne
  obtain ⟨row, hrow, hcell⟩ := getTileAt_decompose hg
  have hok : TileOk tile := hw.1 row (List.get?_mem hrow) tile (List.get?_mem hcell)
  have hres : tile.resource.isSome := by
    rcases hok with ⟨h1, h2⟩ | ⟨r, n, h1, h2, h3⟩
    · rw [h2] at hne
      simp at hne
    · rw [h1]
      rfl
  have := removeResourceFromTile_success hg (tile.resourceAmount.getD 0)
    ⟨hres, hne, le_refl _⟩
  rwa [if_pos (Nat.sub_self _)] at this

/-- C1 witness: the tile invariant holds on a concrete fresh world. -/
theorem c1_witness : TileResourceInv w0 :=
  (c1_resource_depletion_invariant w0 (Reachable.fresh zeroNoise)).1

/-- C5: in every reachable world state the agent position is in bounds and
the tile under the agent is not water. -/
theorem c5_agent_position_invariant (w : GameWorld) (h : Reachable w) :
    isValidPosition w.agent.position = true ∧
      ∃ tile, getTileAt w w.agent.position = some tile ∧
        tile.terrain ≠ TerrainType.water := by
  have hw := reachable_worldInv h
  obtain ⟨t, ht, hterr⟩ := hw.2.1
  exact ⟨isValidPosition_of_getTileAt ht, t, ht, hterr⟩

/-- C5 witness: the agent position invariant on a concrete fresh world. -/
theorem c5_witness : isValidPosition w0.agent.position = true :=
  (c5_agent_position_invariant w0 (Reachable.fresh zeroNoise)).1

/-- C10: the `isActive` flag is false in every reachable world state, stays
false under every mutation step, and stays false across an entire
orchestration run started on a reachable world. -/
theorem c10_isActive_false (w : GameWorld) (h : Reachable w) :
    w.agent.isActive = false ∧
      (∀ w', Step w w' → w'.agent.isActive = false) ∧
      (∀ (goal : String) (responses : Nat → GeminiResult) (a : AgentCtl),
        (start goal responses a w).2.1.agent.isActive = false) := by
  refine ⟨(reachable_worldInv h).2.2, ?_, ?_⟩
  · intro w' hs
    exact (step_preserves hs (reachable_worldInv h)).2.2
  · intro goal responses a
    exact (reachable_worldInv (reachable_start goal responses a w h)).2.2

/-- C10 witness: the flag is false on a concrete fresh world. -/
theorem c10_witness : w0.agent.isActive = false :=
  (c10_isActive_false w0 (Reachable.fresh zeroNoise)).1

theorem addToInventory_grid (w : GameWorld) (item : String) (amount : Nat) :
    (addToInventory w item amount).grid = w.grid := by
  unfold addToInventory
  split <;> rfl

/-- C2: `gather` succeeds exactly when the tile under the agent carries a
resource of the requested kind with positive remaining quantity; on success
it removes min(5, remaining) units from the tile and credits the same amount
to the inventory; on failure the world is unchanged. -/
theorem c2_gather_spec (w : GameWorld) (resource : String) :
    ((gather w resource).1.success = true ↔
      ∃ tile, getTileAt w w.agent.position = some tile ∧
        tile.resource.map ResourceType.toString = some resource ∧
        0 < tile.resourceAmount.getD 0) ∧
    (∀ tile, getTileAt w w.agent.position = some tile →
      tile.resource.map ResourceType.toString = some resource →
      0 < tile.resourceAmount.getD 0 →
      (gather w resource).1.data =
          some (.gatherData resource (min 5 (tile.resourceAmount.getD 0))) ∧
        getTileAt (gather w resource).2 w.agent.position =
          some (if tile.resourceAmount.getD 0 ≤ 5
            then { tile with resource := none, resourceAmount := none }
            else { tile with resourceAmount := some (tile.resourceAmount.getD 0 - 5) }) ∧
        invLookup (gather w resource).2.agent.inventory resource =
          some ((invLookup w.agent.inventory resource).getD 0 +
            min 5 (tile.resourceAmount.getD 0))) ∧
    ((gather w resource).1.success = false → (gather w resource).2 = w) := by
  unfold gather
  dsimp only
  split
  next hnone =>
    refine ⟨⟨fun hs => absurd hs (by simp), ?_⟩, ?_, fun _ => rfl⟩
    · rintro ⟨tile, hg, -, -⟩
      rw [hnone] at hg
      exact absurd hg (by simp)
    · intro tile hg
      rw [hnone] at hg
      exact absurd hg (by simp)
  next tile hg =>
    split
    next hc =>
      obtain ⟨hmap, hne, hpos⟩ := hc
      have hres : tile.resource.isSome := by
        cases hr : tile.resource
        · rw [hr] at hmap
          exact absurd hmap (by simp)
        · rfl
      have hcond : tile.resource.isSome ∧ tile.resourceAmount.getD 0 ≠ 0 ∧
          min 5 (tile.resourceAmount.getD 0) ≤ tile.resourceAmount.getD 0 :=
        ⟨hres, hne, min_le_right _ _⟩
      refine ⟨⟨fun _ => ⟨tile, hg, hmap, hpos⟩, fun _ => rfl⟩, ?_, by simp⟩
      intro tile' hg' hmap' hpos'
      have htt : tile' = tile := by
        rw [hg] at hg'
        exact (Option.some_inj.mp hg').symm
      subst htt
      refine ⟨rfl, ?_, ?_⟩
      · have hget := removeResourceFromTile_success hg
          (min 5 (tile'.resourceAmount.getD 0)) hcond
        rw [getTileAt_congr (addToInventory_grid _ _ _) w.agent.position, hget]
        by_cases h5 : tile'.resourceAmount.getD 0 ≤ 5
        · rw [if_pos (by omega), if_pos h5]
        · rw [if_neg (by omega), if_neg h5]
          have : tile'.resourceAmount.getD 0 - min 5 (tile'.resourceAmount.getD 0) =
              tile'.resourceAmount.getD 0 - 5 := by omega
          rw [this]
      · rw [invLookup_addToInventory, removeResourceFromTile_agent]
    next hc =>
      refine ⟨⟨fun hs => absurd hs (by simp), ?_⟩, ?_, fun _ => rfl⟩
      · rintro ⟨tile', hg', hmap', hpos'⟩
        have htt : tile' = tile := by
          rw [hg] at hg'
          exact (Option.some_inj.mp hg').symm
        subst htt
        exact absurd ⟨hmap', by omega, hpos'⟩ hc
      · intro tile' hg' hmap' hpos'
        have htt : tile' = tile := by
          rw [hg] at hg'
          exact (Option.some_inj.mp hg').symm
        subst htt
        exact absurd ⟨hmap', by omega, hpos'⟩ hc

/-- Noise that puts a forest tile with 8 wood at the start position. -/
def noiseC2 : Nat → Nat → ℚ := fun x y => if x = 10 ∧ y = 10 then 3/20 else 0

/-- A concrete fresh world whose start tile holds 8 wood. -/
def wC2 : GameWorld := createWorld noiseC2

/-- Start tile of the concrete world: a forest holding 8 wood. -/
theorem wC2_start_tile :
    getTileAt wC2 wC2.agent.position =
      some { terrain := .forest, resource := some .wood, resourceAmount := some 8 } := by
  have h1 : noiseC2 10 10 = 3/20 := by norm_num [noiseC2]
  have h2 : generateTile noiseC2 10 10 =
      { terrain := .forest, resource := some .wood, resourceAmount := some 8 } := by
    unfold generateTile
    rw [h1]
    dsimp only
    rw [Int.fract_eq_self.mpr ⟨by norm_num, by norm_num⟩]
    rw [if_neg (by decide), if_pos (by norm_num)]
    have h3 : ((3:ℚ)/20) * 20 = ((3:ℤ):ℚ) := by norm_num
    rw [h3, Int.floor_intCast]
    rfl
  have h4 := getTileAt_createWorld noiseC2 { x := 10, y := 10 } (by decide)
  show getTileAt wC2 { x := 10, y := 10 } = _
  rw [show wC2 = createWorld noiseC2 from rfl, h4]
  exact congrArg some h2

/-- C2 witness: the fresh-world scenario — a tile holding 8 wood yields
amount 5, tile remaining 3, inventory wood 5. -/
theorem c2_witness :
    getTileAt wC2 wC2.agent.position =
      some { terrain := .forest, resource := some .wood, resourceAmount := some 8 } ∧
    (gather wC2 "wood").1.success = true ∧
    (gather wC2 "wood").1.data = some (.gatherData "wood" 5) ∧
    getTileAt (gather wC2 "wood").2 wC2.agent.position =
      some { terrain := .forest, resource := some .wood, resourceAmount := some 3 } ∧
    invLookup (gather wC2 "wood").2.agent.inventory "wood" = some 5 := by
  have ht := wC2_start_tile
  have hspec := c2_gather_spec wC2 "wood"
  have hsucc : (gather wC2 "wood").1.success = true :=
    hspec.1.mpr ⟨_, ht, by decide, by decide⟩
  obtain ⟨hdata, htile, hinv⟩ := hspec.2.1 _ ht (by decide) (by decide)
  refine ⟨ht, hsucc, ?_, ?_, ?_⟩
  · rw [hdata]
    decide
  · rw [htile, if_neg (by decide)]
    decide
  · rw [hinv]
    decide

theorem placeStructure_fail (w : GameWorld) (pos : Position) (s : String)
    (h : (placeStructure w pos s).1 = false) : (placeStructure w pos s).2 = w := by
  unfold placeStructure at h ⊢
  cases hg : getTileAt w pos with
  | none => rfl
  | some tile =>
    rw [hg] at h
    dsimp only at h ⊢
    by_cases hc : tile.structure_.getD "" = "" ∧ tile.terrain ≠ TerrainType.water
    · rw [if_pos hc] at h
      exact absurd h (by simp)
    · rw [if_neg hc]

/-- C3: craft and build are all-or-nothing: a shortfall in any required
resource leaves the world (inventory and grid) fully unchanged, and build
debits resources only after placement succeeded, so a placement failure
consumes nothing. -/
theorem c3_craft_build_all_or_nothing (w : GameWorld) (item structureKind : String) :
    (∀ recipe, tableLookup recipes item = some recipe →
      (∃ p ∈ recipe, hasInInventory w p.1 p.2 = false) →
      (craft w item).1.success = false ∧ (craft w item).2 = w) ∧
    (∀ requirements, tableLookup buildRequirements structureKind = some requirements →
      (∃ p ∈ requirements, hasInInventory w p.1 p.2 = false) →
      (build w structureKind).1.success = false ∧ (build w structureKind).2 = w) ∧
    (∀ requirements, tableLookup buildRequirements structureKind = some requirements →
      (∀ p ∈ requirements, hasInInventory w p.1 p.2 = true) →
      (placeStructure w w.agent.position structureKind).1 = false →
      (build w structureKind).1.success = false ∧ (build w structureKind).2 = w) := by
  refine ⟨?_, ?_, ?_⟩
  · intro recipe hrec hshort
    unfold craft
    rw [hrec]
    dsimp only
    have hsome : (recipe.find? fun p => ¬ hasInInventory w p.1 p.2).isSome := by
      rw [List.find?_isSome]
      obtain ⟨p, hp, hfalse⟩ := hshort
      exact ⟨p, hp, by simp [hfalse]⟩
    cases hf : recipe.find? fun p => ¬ hasInInventory w p.1 p.2 with
    | none => rw [hf] at hsome; exact absurd hsome (by simp)
    | some short => exact ⟨rfl, rfl⟩
  · intro requirements hreq hshort
    unfold build
    rw [hreq]
    dsimp only
    have hsome : (requirements.find? fun p => ¬ hasInInventory w p.1 p.2).isSome := by
      rw [List.find?_isSome]
      obtain ⟨p, hp, hfalse⟩ := hshort
      exact ⟨p, hp, by simp [hfalse]⟩
    cases hf : requirements.find? fun p => ¬ hasInInventory w p.1 p.2 with
    | none => rw [hf] at hsome; exact absurd hsome (by simp)
    | some short => exact ⟨rfl, rfl⟩
  · intro requirements hreq hall hpl
    unfold build
    rw [hreq]
    dsimp only
    have hnone : (requirements.find? fun p => ¬ hasInInventory w p.1 p.2) = none := by
      rw [List.find?_eq_none]
      intro p hp
      simp [hall p hp]
    rw [hnone]
    dsimp only
    rw [if_pos (by rw [hpl]; simp)]
    exact ⟨rfl, placeStructure_fail w w.agent.position structureKind hpl⟩

/-- A concrete world with only 2 wood and 2 stone in the inventory. -/
def wC3 : GameWorld :=
  { size := gridSize
    grid := []
    agent := { position := { x := 0, y := 0 }
               inventory := [("wood", 2), ("stone", 2)]
               isActive := false } }

/-- A concrete world holding enough resources for a shelter but no buildable
tile under the agent. -/
def wC3b : GameWorld :=
  { size := gridSize
    grid := []
    agent := { position := { x := 0, y := 0 }
               inventory := [("wood", 10), ("stone", 5)]
               isActive := false } }

/-- C3 witness: `craft "axe"` with 2 wood / 2 stone fails and changes
nothing, and a `build "shelter"` whose placement fails consumes nothing. -/
theorem c3_witness :
    ((craft wC3 "axe").1.success = false ∧ (craft wC3 "axe").2 = wC3) ∧
    ((build wC3b "shelter").1.success = false ∧ (build wC3b "shelter").2 = wC3b) := by
  constructor
  · exact (c3_craft_build_all_or_nothing wC3 "axe" "shelter").1
      [("wood", 3), ("stone", 2)] (by decide) ⟨("wood", 3), by decide, by decide⟩
  · exact (c3_craft_build_all_or_nothing wC3b "axe" "shelter").2.2
      [("wood", 10), ("stone", 5)] (by decide) (by decide) (by decide)

theorem setAgentPosition_blocked (w : GameWorld) (pos : Position)
    (h : ∀ tile, getTileAt w pos = some tile → tile.terrain = TerrainType.water) :
    setAgentPosition w pos = (false, w) := by
  unfold setAgentPosition
  split
  · split
    next tile hg => rw [if_neg (fun hne => hne (h tile hg))]
    next => rfl
  · rfl

theorem setAgentPosition_success {w : GameWorld} {pos : Position} {tile : Tile}
    (hg : getTileAt w pos = some tile) (hterr : tile.terrain ≠ TerrainType.water) :
    setAgentPosition w pos =
      (true, { w with agent := { w.agent with position := pos } }) := by
  unfold setAgentPosition
  rw [if_pos (isValidPosition_of_getTileAt hg), hg]
  dsimp only
  rw [if_pos hterr]

/-- C4: move rejects unknown directions with a message enumerating the valid
values and does not move; a known direction toward water or out of bounds is
blocked and leaves the position unchanged; a known direction toward an
in-bounds non-water tile succeeds and sets the position to the adjacent
coordinate. -/
theorem c4_move_spec (w : GameWorld) (direction : String) :
    (direction ∉ validDirections →
      (move w direction).1 =
        { success := false
          message := "Invalid direction: " ++ direction ++ ". Must be one of: " ++
            String.intercalate ", " validDirections } ∧
      (move w direction).2 = w) ∧
    (direction ∈ validDirections →
      (∀ tile, getTileAt w (adjacentPosition w.agent.position direction) = some tile →
        tile.terrain = TerrainType.water) →
      (move w direction).1.success = false ∧ (move w direction).2 = w) ∧
    (direction ∈ validDirections →
      ∀ tile, getTileAt w (adjacentPosition w.agent.position direction) = some tile →
        tile.terrain ≠ TerrainType.water →
        (move w direction).1.success = true ∧
          (move w direction).2 =
            { w with agent := { w.agent with
              position := adjacentPosition w.agent.position direction } }) := by
  refine ⟨?_, ?_, ?_⟩
  · intro hd
    unfold move
    rw [if_pos hd]
    exact ⟨rfl, rfl⟩
  · intro hd hwater
    unfold move
    rw [if_neg (not_not_intro hd)]
    dsimp only
    rw [setAgentPosition_blocked w _ hwater]
    exact ⟨rfl, rfl⟩
  · intro hd tile hg hterr
    unfold move
    rw [if_neg (not_not_intro hd)]
    dsimp only
    rw [setAgentPosition_success hg hterr]
    exact ⟨rfl, rfl⟩

/-- A concrete world whose tiles are all water. -/
def wWater : GameWorld :=
  { size := gridSize
    grid := List.replicate gridSize
      (List.replicate gridSize { terrain := TerrainType.water })
    agent := { position := { x := 10, y := 10 }, inventory := [], isActive := false } }

/-- C4 witness: an unknown direction gives the enumerating message without
moving, and moving north onto a water tile is blocked with the position
unchanged. -/
theorem c4_witness :
    (move wWater "up").1.message =
      "Invalid direction: up. Must be one of: north, south, east, west" ∧
    (move wWater "up").2 = wWater ∧
    (move wWater "north").1.success = false ∧
    (move wWater "north").2 = wWater := by
  have h1 := (c4_move_spec wWater "up").1 (by decide)
  have hgw : getTileAt wWater (adjacentPosition wWater.agent.position "north") =
      some { terrain := TerrainType.water } := by decide
  have h2 := (c4_move_spec wWater "north").2.1 (by decide) ?hw
  case hw =>
    intro tile hg
    rw [hgw] at hg
    cases Option.some_inj.mp hg
    rfl
  refine ⟨?_, h1.2, h2.1, h2.2⟩
  rw [h1.1]
  decide

/-- Inventory well-formedness: every stored entry has a positive count. -/
@[reducible]
def InvNoZeros (inv : Inventory) : Prop :=
  ∀ p ∈ inv, 0 < p.2

/-- C6 counterexample: on a reachable (fresh) world, crediting amount 0 for
an absent key leaves a key with count 0 in the inventory, refuting the
claim for zero (hence for all non-negative) amounts. -/
theorem c6_counterexample :
    Reachable w0 ∧
      invLookup (addToInventory w0 "wood" 0).agent.inventory "wood" = some 0 :=
  ⟨Reachable.fresh zeroNoise, rfl⟩

/-- C6 (amended): a debit of any amount, and a credit of any strictly
positive amount, never leave a zero-count key in the inventory; crediting
amount 0 to an absent key is the one exception the code admits. -/
theorem c6_no_zero_persists_amended (w : GameWorld) (item : String) (amount : Nat) :
    (InvNoZeros w.agent.inventory → 0 < amount →
      InvNoZeros (addToInventory w item amount).agent.inventory) ∧
    (InvNoZeros w.agent.inventory →
      InvNoZeros (removeFromInventory w item amount).2.agent.inventory) := by
  constructor
  · intro h hamount
    unfold addToInventory
    split
    · intro p hp
      dsimp only at hp
      rcases List.mem_append.mp hp with hp | hp
      · exact h p hp
      · rw [List.mem_singleton.mp hp]
        exact hamount
    · intro p hp
      dsimp only at hp
      unfold invSet at hp
      obtain ⟨q, hq, hpq⟩ := List.mem_map.mp hp
      by_cases hqi : q.1 = item
      · rw [if_pos hqi] at hpq
        rw [← hpq]
        dsimp only
        omega
      · rw [if_neg hqi] at hpq
        rw [← hpq]
        exact h q hq
  · intro h
    unfold removeFromInventory
    split
    · exact h
    · split
      · split
        next hz =>
          intro p hp
          dsimp only at hp
          exact h p (List.mem_of_mem_filter hp)
        next hnz =>
          intro p hp
          dsimp only at hp
          unfold invSet at hp
          obtain ⟨q, hq, hpq⟩ := List.mem_map.mp hp
          by_cases hqi : q.1 = item
          · rw [if_pos hqi] at hpq
            rw [← hpq]
            dsimp only
            omega
          · rw [if_neg hqi] at hpq
            rw [← hpq]
            exact h q hq
      · exact h

/-- C6 witness: a positive credit and a debit on a concrete inventory keep
every count positive. -/
theorem c6_witness :
    InvNoZeros (addToInventory wC3 "wood" 5).agent.inventory ∧
    InvNoZeros (removeFromInventory wC3 "wood" 2).2.agent.inventory :=
  ⟨(c6_no_zero_persists_amended wC3 "wood" 5).1 (by decide) (by decide),
   (c6_no_zero_persists_amended wC3 "wood" 2).2 (by decide)⟩

theorem executeTool_unknown (w : GameWorld) (name : String)
    (args : List (String × String)) (h : name ∉ toolNames) :
    executeTool w name args =
      ({ success := false, message := "Unknown tool: " ++ name }, w) := by
  have h1 : ¬ name = "move" := fun he => h (by rw [he]; decide)
  have h2 : ¬ name = "look" := fun he => h (by rw [he]; decide)
  have h3 : ¬ name = "gather" := fun he => h (by rw [he]; decide)
  have h4 : ¬ name = "craft" := fun he => h (by rw [he]; decide)
  have h5 : ¬ name = "build" := fun he => h (by rw [he]; decide)
  have h6 : ¬ name = "getInventory" := fun he => h (by rw [he]; decide)
  unfold executeTool
  rw [if_neg h1, if_neg h2, if_neg h3, if_neg h4, if_neg h5, if_neg h6]

theorem runLoop_proj (responses : Nat → GeminiResult) (st : LoopState) :
    (runLoop responses st).outcome = (runLoopGo responses 0 st).outcome ∧
    (runLoop responses st).iterations = (runLoopGo responses 0 st).iterations ∧
    (runLoop responses st).final = (runLoopGo responses 0 st).final := by
  unfold runLoop
  dsimp only
  split <;> exact ⟨rfl, rfl, rfl⟩

theorem runLoopGo_unknown_aux (responses : Nat → GeminiResult) (fuel : Nat) :
    ∀ (iteration : Nat) (st : LoopState),
      maxIterations - iteration ≤ fuel →
      iteration ≤ maxIterations →
      (∀ i, iteration ≤ i → i < maxIterations → ∃ nm args, nm ∉ toolNames ∧
        responses i = .ok (some { role := "model",
                                  parts := [.functionCall { name := nm, args := args }] })) →
      (runLoopGo responses iteration st).outcome = .maxIterationsReached ∧
      (runLoopGo responses iteration st).iterations = maxIterations ∧
      (runLoopGo responses iteration st).final.world = st.world := by
  induction fuel with
  | zero =>
    intro iteration st hle hit _
    unfold runLoopGo
    rw [dif_neg (by omega)]
    exact ⟨rfl, (by omega : iteration = maxIterations), rfl⟩
  | succ n ih =>
    intro iteration st hle hit hresp
    unfold runLoopGo
    by_cases hlt : iteration < maxIterations
    · rw [dif_pos hlt]
      obtain ⟨nm, args, hnm, hri⟩ := hresp iteration (le_refl _) hlt
      rw [hri]
      dsimp only
      have hcalls : extractFunctionCalls
          { role := "model", parts := [.functionCall { name := nm, args := args }] } =
          [{ name := nm, args := args }] := rfl
      rw [hcalls]
      rw [if_neg (by simp)]
      have hw : (execCalls st.world [{ name := nm, args := args }]).2.2 = st.world := by
        show (executeTool st.world nm args).2 = st.world
        rw [executeTool_unknown _ _ _ hnm]
      obtain ⟨ho, hi, hwld⟩ := ih (iteration + 1)
        { conversation := st.conversation ++
            [modelTurn [{ name := nm, args := args }],
             userTurn (execCalls st.world [{ name := nm, args := args }]).1]
          world := (execCalls st.world [{ name := nm, args := args }]).2.2 }
        (by omega) (by omega)
        (fun i hi1 hi2 => hresp i (by omega) hi2)
      exact ⟨ho, hi, hwld.trans hw⟩
    · rw [dif_neg hlt]
      exact ⟨rfl, (by omega : iteration = maxIterations), rfl⟩

/-- C7: when every round's response requests one operation with an unknown
name, each request yields a local success=false outcome and an unchanged
world, the loop keeps iterating, and the run terminates in
MaxIterationsReached after exactly 30 rounds — not Completed. -/
theorem c7_unknown_ops_max_iterations (responses : Nat → GeminiResult)
    (st : LoopState)
    (h : ∀ i, i < maxIterations → ∃ nm args, nm ∉ toolNames ∧
      responses i = .ok (some { role := "model",
                                parts := [.functionCall { name := nm, args := args }] })) :
    (∀ (w : GameWorld) (nm : String) (args : List (String × String)),
      nm ∉ toolNames →
      executeTool w nm args = ({ success := false, message := "Unknown tool: " ++ nm }, w)) ∧
    (runLoop responses st).outcome = .maxIterationsReached ∧
    (runLoop responses st).iterations = maxIterations ∧
    (runLoop responses st).final.world = st.world := by
  obtain ⟨ho, hi, hw⟩ := runLoopGo_unknown_aux responses maxIterations 0 st
    (by omega) (by omega) (fun i _ hi2 => h i hi2)
  obtain ⟨po, pi, pf⟩ := runLoop_proj responses st
  exact ⟨fun w nm args hnm => executeTool_unknown w nm args hnm,
    po.trans ho, pi.trans hi, (congrArg LoopState.world pf).trans hw⟩

/-- A response stream that always requests one unknown operation. -/
def respUnknown : Nat → GeminiResult := fun _ =>
  .ok (some { role := "model",
              parts := [.functionCall { name := "frobnicate", args := [] }] })

/-- An initial loop state over a concrete world. -/
def stC7 : LoopState := { conversation := [], world := wC3 }

/-- C7 witness: a run fed only unknown operation requests ends in
MaxIterationsReached after 30 rounds with the world unchanged. -/
theorem c7_witness :
    (runLoop respUnknown stC7).outcome = .maxIterationsReached ∧
    (runLoop respUnknown stC7).iterations = maxIterations ∧
    (runLoop respUnknown stC7).final.world = stC7.world := by
  have h := c7_unknown_ops_max_iterations respUnknown stC7
    (fun i _ => ⟨"frobnicate", [], by decide, rfl⟩)
  exact ⟨h.2.1, h.2.2.1, h.2.2.2⟩

/-- C8: a round whose service response contains zero requested operations
completes the run: nothing is executed, the loop state is unchanged, the
outcome is Completed after exactly one round, and the free-text
explanation (when present) plus the completion message are logged. -/
theorem c8_empty_response_completes (responses : Nat → GeminiResult)
    (st : LoopState) (content : Content)
    (h0 : responses 0 = .ok (some content))
    (hempty : extractFunctionCalls content = []) :
    (runLoop responses st).outcome = .completed ∧
    (runLoop responses st).final = st ∧
    (runLoop responses st).iterations = 1 ∧
    (runLoop responses st).logs =
      ("--- Iteration 1 ---", LogKind.info) ::
        ((if extractText content ≠ "" then
            [("Agent: " ++ extractText content, LogKind.success)]
          else []) ++
          [("Agent completed its task", LogKind.success)]) := by
  have hr : runLoopGo responses 0 st =
      { outcome := .completed, final := st, iterations := 1
        logs := ("--- Iteration 1 ---", LogKind.info) ::
          ((if extractText content ≠ "" then
              [("Agent: " ++ extractText content, LogKind.success)]
            else []) ++
            [("Agent completed its task", LogKind.success)]) } := by
    unfold runLoopGo
    rw [dif_pos (by decide), h0]
    dsimp only
    rw [hempty]
    rw [if_pos (show ([] : List FnCall).isEmpty = true from rfl)]
    rfl
  unfold runLoop
  rw [hr]
  dsimp only
  rw [if_neg (by decide)]
  exact ⟨rfl, rfl, rfl, rfl⟩

/-- A response stream whose every reply is plain text, no operations. -/
def respEmpty : Nat → GeminiResult := fun _ =>
  .ok (some { role := "model", parts := [.text "done"] })

/-- C8 witness: a run whose first response has no operations reaches
Completed after one round with the state unchanged and the text logged. -/
theorem c8_witness :
    (runLoop respEmpty stC7).outcome = .completed ∧
    (runLoop respEmpty stC7).final = stC7 ∧
    (runLoop respEmpty stC7).iterations = 1 ∧
    (runLoop respEmpty stC7).logs =
      [("--- Iteration 1 ---", LogKind.info), ("Agent: done", LogKind.success),
       ("Agent completed its task", LogKind.success)] := by
  have h := c8_empty_response_completes respEmpty stC7
    { role := "model", parts := [.text "done"] } rfl rfl
  refine ⟨h.1, h.2.1, h.2.2.1, ?_⟩
  rw [h.2.2.2]
  decide

/-- A response stream that always fails with a transport error. -/
def respFail : Nat → GeminiResult := fun _ => .fail "network error"

theorem runLoopGo_fail_step (responses : Nat → GeminiResult) (iteration : Nat)
    (st : LoopState) (msg : String) (hlt : iteration < maxIterations)
    (hresp : responses iteration = .fail msg) :
    runLoopGo responses iteration st =
      { outcome := .errorStop, final := st, iterations := iteration + 1
        logs := [("--- Iteration " ++ toString (iteration + 1) ++ " ---", LogKind.info),
                 ("Error: " ++ msg, LogKind.error)] } := by
  unfold runLoopGo
  rw [dif_pos hlt, hresp]

/-- C9 counterexample: with a configured credential, `Agent.start` with an
empty goal is not rejected — a run happens and a conversation turn is
created, refuting the claim that start rejects a missing goal before any
state change. -/
theorem c9_counterexample :
    ((start "" respFail { isRunning := false, conversationHistory := [], apiKey := "k" }
      wC3).2.2).isSome = true ∧
    (start "" respFail { isRunning := false, conversationHistory := [], apiKey := "k" }
      wC3).1.conversationHistory.length = 1 := by
  have hr := runLoopGo_fail_step respFail 0
    { conversation := [{ role := "user", parts := [.text (systemPrompt "")] }], world := wC3 }
    "network error" (by decide) rfl
  unfold start
  rw [if_neg (by decide)]
  dsimp only
  unfold runLoop
  rw [hr]
  dsimp only
  rw [if_neg (by decide)]
  exact ⟨rfl, rfl⟩

/-- C9 (amended): `Agent.start` rejects a missing credential synchronously —
no run, no conversation turn, no world change; the empty-goal rejection is
enforced one layer up, by the UI entry point `startAgent`, which returns
before invoking `start`; `Agent.start` itself does not validate the goal. -/
theorem c9_start_validation_amended (goal goalInput apiKeyInput : String)
    (responses : Nat → GeminiResult) (a : AgentCtl) (w : GameWorld) :
    (a.apiKey = "" → start goal responses a w = (a, w, none)) ∧
    (goalInput.trim = "" →
      startAgent goalInput apiKeyInput responses a w = (a, w, none)) := by
  constructor
  · intro hk
    unfold start
    rw [if_pos hk]
  · intro hg
    unfold startAgent
    dsimp only
    rw [if_pos hg]

theorem empty_trim : "".trim = "" := by
  simp [String.trim, Substring.trim, String.toSubstring, Substring.trimLeft,
    Substring.trimRight, Substring.takeWhileAux, Substring.takeRightWhileAux,
    Substring.toString, String.extract]

/-- C9 witness: a missing credential rejects `start` with no state change,
and an empty goal rejects `startAgent` before it reaches `start`. -/
theorem c9_witness :
    start "gather wood" respFail
        { isRunning := false, conversationHistory := [], apiKey := "" } wC3 =
      ({ isRunning := false, conversationHistory := [], apiKey := "" }, wC3, none) ∧
    startAgent "" "k" respFail
        { isRunning := false, conversationHistory := [], apiKey := "" } wC3 =
      ({ isRunning := false, conversationHistory := [], apiKey := "" }, wC3, none) :=
  ⟨(c9_start_validation_amended "gather wood" "" "k" respFail
      { isRunning := false, conversationHistory := [], apiKey := "" } wC3).1 rfl,
   (c9_start_validation_amended "gather wood" "" "k" respFail
      { isRunning := false, conversationHistory := [], apiKey := "" } wC3).2 empty_trim⟩

end Titoland
